import Mathlib

/-
Verification of the interaction-head pipeline of the spatially-conditioned-graphs
repository (`interaction_head.py`).

The Python tensors are embedded shallowly:

* a detection is a record of box coordinates, an integer class label and a
  rational confidence score (floating point numbers are modelled by `ℚ`);
* 1-D tensors are `List ℚ`, 2-D tensors are `List (List ℚ)` (row major), and a
  tensor with zero rows is the empty list;
* external library primitives that the source consumes opaquely
  (`batched_nms`, `torch.sigmoid`, `binary_focal_loss`, the pooled region
  features, the learned sub-networks) are function parameters of the
  embedded definitions, exactly at the call boundary where the source calls
  into them;
* Python code that can raise is embedded in `Except String`.
-/

namespace SCG

/-- Entry `m[i][j]` of a row-major rational matrix, with the usual
out-of-range default of `0` (all uses are guarded by bounds facts). -/
def get2 (m : List (List ℚ)) (i j : ℕ) : ℚ := (m.getD i []).getD j 0

/-- Embeds `torch.zeros(m, k)` as a row-major matrix. -/
def zerosMat (m k : ℕ) : List (List ℚ) := List.replicate m (List.replicate k 0)

/-! ## `InteractionHead.preprocess` (interaction_head.py, lines 71-137) -/

/-- Embedded object detection: one box (4 coordinates), an integer class
label and a rational confidence score, mirroring one row of the parallel
tensors `boxes`, `labels`, `scores` consumed by `InteractionHead.preprocess`. -/
structure Det where
  box : List ℚ
  label : ℕ
  score : ℚ
deriving DecidableEq

instance : Inhabited Det := ⟨⟨[], 0, 0⟩⟩

/-- Ground-truth box pairs of one image, as consumed by the `append_gt`
branch of `InteractionHead.preprocess`. -/
structure TargetPre where
  boxes_h : List (List ℚ)
  boxes_o : List (List ℚ)
  object : List ℕ

/-- Embeds the `append_gt` branch of `InteractionHead.preprocess`
(lines 93-102): ground-truth human boxes (labelled `human_idx`) and object
boxes are prepended to the detection list as synthetic detections with
confidence score 1. -/
def appendGT (human_idx : ℕ) (tgt : TargetPre) (dets : List Det) : List Det :=
  (tgt.boxes_h.map (fun b => ⟨b, human_idx, 1⟩))
    ++ ((tgt.boxes_o.zip tgt.object).map (fun p => ⟨p.1, p.2, 1⟩))
    ++ dets

/-- Detection at index `i` of the parallel arrays (`boxes[i]`, `labels[i]`,
`scores[i]`). -/
def detAt (dets : List Det) (i : ℕ) : Det := dets.getD i default

/-- Embeds line 105-107: `active_idx = torch.nonzero(scores >= box_score_thresh)`,
the indices of detections meeting the score threshold, in index order. -/
def activeIdx (thresh : ℚ) (dets : List Det) : List ℕ :=
  (List.range dets.length).filter (fun i => decide (thresh ≤ (detAt dets i).score))

/-- Embeds lines 109-115: class-wise non-maximum suppression.  `batched_nms`
is an external torchvision primitive, taken here as the opaque function
parameter `nms` returning kept positions into its input; line 115 then maps
the kept positions back through `active_idx`. -/
def nmsKept (thresh : ℚ) (nms : List Det → List ℕ) (dets : List Det) : List ℕ :=
  (nms ((activeIdx thresh dets).map (detAt dets))).map
    (fun k => (activeIdx thresh dets).getD k 0)

/-- The comparison used by line 117, `torch.argsort(scores[active_idx],
descending=True)`: index `a` precedes index `b` when its score is at least
as large. -/
def scoreDesc (dets : List Det) : ℕ → ℕ → Prop :=
  fun a b => (detAt dets b).score ≤ (detAt dets a).score

instance (dets : List Det) : DecidableRel (scoreDesc dets) := fun _ _ => by
  unfold scoreDesc; infer_instance

instance (dets : List Det) : IsTotal ℕ (scoreDesc dets) := ⟨fun _ _ => le_total _ _⟩

instance (dets : List Det) : IsTrans ℕ (scoreDesc dets) := ⟨fun _ _ _ h1 h2 => le_trans h2 h1⟩

/-- Embeds lines 117-118: the surviving indices sorted by descending score. -/
def sortedIdx (thresh : ℚ) (nms : List Det → List ℕ) (dets : List Det) : List ℕ :=
  List.insertionSort (scoreDesc dets) (nmsKept thresh nms dets)

/-- Embeds lines 120-123: positions of human-labelled detections among the
sorted survivors (`h_idx`), truncated to `max_human`. -/
def humanIdxList (human_idx : ℕ) (thresh : ℚ) (max_h : ℕ)
    (nms : List Det → List ℕ) (dets : List Det) : List ℕ :=
  ((sortedIdx thresh nms dets).filter
    (fun i => (detAt dets i).label == human_idx)).take max_h

/-- Embeds lines 121-125: positions of non-human detections among the sorted
survivors (`o_idx`), truncated to `max_object`. -/
def objectIdxList (human_idx : ℕ) (thresh : ℚ) (max_o : ℕ)
    (nms : List Det → List ℕ) (dets : List Det) : List ℕ :=
  ((sortedIdx thresh nms dets).filter
    (fun i => !((detAt dets i).label == human_idx))).take max_o

/-- Embeds lines 104-135 of `InteractionHead.preprocess` for one image:
threshold, class-wise NMS, descending-score sort, per-group caps, and the
humans-first concatenation `keep_idx = torch.cat([h_idx, o_idx])`. -/
def preprocessCore (human_idx : ℕ) (thresh : ℚ) (max_h max_o : ℕ)
    (nms : List Det → List ℕ) (dets : List Det) : List Det :=
  (humanIdxList human_idx thresh max_h nms dets
    ++ objectIdxList human_idx thresh max_o nms dets).map (detAt dets)

/-- Embeds the whole per-image body of `InteractionHead.preprocess`
(lines 85-135), including the optional ground-truth append of lines 91-102. -/
def preprocessImage (human_idx : ℕ) (thresh : ℚ) (max_h max_o : ℕ)
    (nms : List Det → List ℕ) (append_gt : Bool) (tgt : TargetPre)
    (dets : List Det) : List Det :=
  preprocessCore human_idx thresh max_h max_o nms
    (if append_gt then appendGT human_idx tgt dets else dets)

/-- C2.  For every input detection set (and any behaviour of the external
NMS primitive), the per-image output of `InteractionHead.preprocess` splits
as a human block followed by a non-human block, has length at most
`max_human + max_object` with each block respecting its own cap, and the
confidence scores inside each block are non-increasing.  Both blocks may be
empty; the function is total, so no error is raised for empty groups. -/
theorem preprocess_bounded_grouped_sorted
    (human_idx : ℕ) (thresh : ℚ) (max_h max_o : ℕ)
    (nms : List Det → List ℕ) (append_gt : Bool) (tgt : TargetPre)
    (dets : List Det) :
    ∃ H O,
      preprocessImage human_idx thresh max_h max_o nms append_gt tgt dets = H ++ O
      ∧ H.length ≤ max_h ∧ O.length ≤ max_o
      ∧ (preprocessImage human_idx thresh max_h max_o nms append_gt tgt dets).length
          ≤ max_h + max_o
      ∧ (∀ d ∈ H, d.label = human_idx)
      ∧ (∀ d ∈ O, d.label ≠ human_idx)
      ∧ List.Sorted (fun a b : ℚ => b ≤ a) (H.map Det.score)
      ∧ List.Sorted (fun a b : ℚ => b ≤ a) (O.map Det.score) := by
  set ds := (if append_gt then appendGT human_idx tgt dets else dets) with hds
  have hsorted : List.Sorted (scoreDesc ds) (sortedIdx thresh nms ds) :=
    List.sorted_insertionSort (scoreDesc ds) (nmsKept thresh nms ds)
  have hsubH : List.Sublist (humanIdxList human_idx thresh max_h nms ds)
      (sortedIdx thresh nms ds) :=
    (List.take_sublist _ _).trans (List.filter_sublist _)
  have hsubO : List.Sublist (objectIdxList human_idx thresh max_o nms ds)
      (sortedIdx thresh nms ds) :=
    (List.take_sublist _ _).trans (List.filter_sublist _)
  refine ⟨(humanIdxList human_idx thresh max_h nms ds).map (detAt ds),
    (objectIdxList human_idx thresh max_o nms ds).map (detAt ds),
    ?_, ?_, ?_, ?_, ?_, ?_, ?_, ?_⟩
  · simp [preprocessImage, preprocessCore, hds]
  · simp [humanIdxList, List.length_take]
  · simp [objectIdxList, List.length_take]
  · have h1 : ((humanIdxList human_idx thresh max_h nms ds).map (detAt ds)).length ≤ max_h := by
      simp [humanIdxList, List.length_take]
    have h2 : ((objectIdxList human_idx thresh max_o nms ds).map (detAt ds)).length ≤ max_o := by
      simp [objectIdxList, List.length_take]
    have : preprocessImage human_idx thresh max_h max_o nms append_gt tgt dets
        = (humanIdxList human_idx thresh max_h nms ds).map (detAt ds)
          ++ (objectIdxList human_idx thresh max_o nms ds).map (detAt ds) := by
      simp [preprocessImage, preprocessCore, hds]
    rw [this, List.length_append]
    omega
  · intro d hd
    rcases List.mem_map.1 hd with ⟨i, hi, rfl⟩
    have hi' := List.take_subset _ _ hi
    have := (List.mem_filter.1 hi').2
    simpa using this
  · intro d hd
    rcases List.mem_map.1 hd with ⟨i, hi, rfl⟩
    have hi' := List.take_subset _ _ hi
    have := (List.mem_filter.1 hi').2
    simpa using this
  · rw [List.map_map]
    exact List.pairwise_map.mpr (hsorted.sublist hsubH)
  · rw [List.map_map]
    exact List.pairwise_map.mpr (hsorted.sublist hsubO)

/-! ## `InteractionHead.postprocess` (interaction_head.py, lines 182-232) -/

/-- Per-image result record built by the loop body of
`InteractionHead.postprocess` (lines 212-230). -/
structure PPResult where
  boxesH : List (List ℚ)
  boxesO : List (List ℚ)
  index : List ℕ
  prediction : List ℕ
  scores : List ℚ
  object : List ℕ
  prior : List ℚ × List ℚ
  weights : List ℚ
  labels : Option (List ℚ)
  binaryLabels : Option (List ℚ)

/-- Embeds `torch.sigmoid(logits)` on a 2-D tensor: the external squashing
function is the parameter `f`, applied entrywise (lines 204-205). -/
def matSigmoid (f : ℚ → ℚ) (m : List (List ℚ)) : List (List ℚ) :=
  m.map (List.map f)

/-- Embeds `torch.nonzero(p[0])` (line 216): the row-major list of
coordinates of the non-zero entries of a 2-D tensor. -/
def nonzeroIdx (m : List (List ℚ)) : List (ℕ × ℕ) :=
  (List.range m.length).flatMap (fun i =>
    (List.range (m.getD i []).length).filterMap (fun j =>
      if get2 m i j = 0 then none else some (i, j)))

/-- Embeds the loop body of `InteractionHead.postprocess` (lines 212-230)
for one image.  `w` and `s` are the per-image blocks of the sigmoided
suppressor and predictor logits, `(p0, p1)` the two prior planes, `o` the
per-pair object classes and `lab` the optional binary label matrix.
`.detach()` on line 221 is the identity on values. -/
def postprocessImage (w s p0 p1 : List (List ℚ)) (bh bo : List (List ℚ))
    (o : List ℕ) (lab : Option (List (List ℚ))) : PPResult :=
  let ret := nonzeroIdx p0
  { boxesH := bh
    boxesO := bo
    index := ret.map Prod.fst
    prediction := ret.map Prod.snd
    scores := ret.map (fun p =>
      get2 s p.1 p.2 * (get2 p0 p.1 p.2 * get2 p1 p.1 p.2)
        * get2 w p.1 (o.getD p.1 0))
    object := o
    prior := (ret.map (fun p => get2 p0 p.1 p.2), ret.map (fun p => get2 p1 p.1 p.2))
    weights := (List.range w.length).map (fun i => get2 w i (o.getD i 0))
    labels := lab.map (fun l => ret.map (fun p => get2 l p.1 p.2))
    binaryLabels := lab.map (fun l => l.map (fun row => min row.sum 1)) }

/-- Characterisation of `torch.nonzero` on a 2-D tensor: a coordinate pair
is listed exactly when it is in range and its entry is non-zero. -/
theorem mem_nonzeroIdx (m : List (List ℚ)) (i j : ℕ) :
    (i, j) ∈ nonzeroIdx m
      ↔ i < m.length ∧ j < (m.getD i []).length ∧ get2 m i j ≠ 0 := by
  simp only [nonzeroIdx, List.mem_flatMap, List.mem_filterMap, List.mem_range]
  constructor
  · rintro ⟨a, ha, b, hb, hif⟩
    by_cases h0 : get2 m a b = 0
    · rw [if_pos h0] at hif; exact absurd hif (by simp)
    · rw [if_neg h0] at hif
      obtain ⟨rfl, rfl⟩ : a = i ∧ b = j := by
        constructor <;> [exact congrArg Prod.fst (Option.some.inj hif);
          exact congrArg Prod.snd (Option.some.inj hif)]
      exact ⟨ha, hb, h0⟩
  · rintro ⟨hi, hj, h0⟩
    exact ⟨i, hi, j, hj, by rw [if_neg h0]⟩

/-- Entrywise application of a function commutes with in-range lookup. -/
theorem get2_map_map (f : ℚ → ℚ) (m : List (List ℚ)) (i j : ℕ)
    (hi : i < m.length) (hj : j < (m.getD i []).length) :
    get2 (m.map (List.map f)) i j = f (get2 m i j) := by
  unfold get2
  rw [List.getD_eq_getElem m [] hi] at hj ⊢
  rw [List.getD_eq_getElem _ [] (by simpa using hi), List.getElem_map,
    List.getD_eq_getElem _ 0 (by simpa using hj), List.getElem_map,
    List.getD_eq_getElem _ 0 hj]

/-- C1.  In `InteractionHead.postprocess`, a (pair, class) entry is retained
for an image exactly when the human-prior plane `p[0]` is non-zero there
(line 216); the score of a retained entry is
sigmoid(predictor logit) × (human-prior × object-prior) ×
sigmoid(suppressor logit at the pair's object class) (line 221, the detach
only stops gradients); consequently every retained entry sits at a
coordinate whose human-prior is non-zero, so the masking is exact. -/
theorem postprocess_mask_and_score
    (f : ℚ → ℚ) (lp ls p0 p1 : List (List ℚ)) (bh bo : List (List ℚ))
    (o : List ℕ) (lab : Option (List (List ℚ)))
    (hlp : lp.length = p0.length)
    (hls : ls.length = p0.length)
    (hrowp : ∀ i, i < p0.length → (lp.getD i []).length = (p0.getD i []).length)
    (hrows : ∀ i, i < p0.length → o.getD i 0 < (ls.getD i []).length) :
    (postprocessImage (matSigmoid f ls) (matSigmoid f lp) p0 p1 bh bo o lab).index
        = (nonzeroIdx p0).map Prod.fst
    ∧ (postprocessImage (matSigmoid f ls) (matSigmoid f lp) p0 p1 bh bo o lab).prediction
        = (nonzeroIdx p0).map Prod.snd
    ∧ (∀ i j, (i, j) ∈ nonzeroIdx p0
        ↔ i < p0.length ∧ j < (p0.getD i []).length ∧ get2 p0 i j ≠ 0)
    ∧ (postprocessImage (matSigmoid f ls) (matSigmoid f lp) p0 p1 bh bo o lab).scores
        = (nonzeroIdx p0).map (fun p =>
            f (get2 lp p.1 p.2) * (get2 p0 p.1 p.2 * get2 p1 p.1 p.2)
              * f (get2 ls p.1 (o.getD p.1 0)))
    ∧ (∀ p ∈ nonzeroIdx p0, get2 p0 p.1 p.2 ≠ 0) := by
  refine ⟨rfl, rfl, fun i j => mem_nonzeroIdx p0 i j, ?_, ?_⟩
  · show (nonzeroIdx p0).map _ = (nonzeroIdx p0).map _
    apply List.map_congr_left
    intro p hp
    obtain ⟨hi, hj, _⟩ := (mem_nonzeroIdx p0 p.1 p.2).1 (by simpa using hp)
    rw [matSigmoid, matSigmoid,
      get2_map_map f lp p.1 p.2 (by omega) (by rw [hrowp p.1 hi]; exact hj),
      get2_map_map f ls p.1 (o.getD p.1 0) (by omega) (hrows p.1 hi)]
  · intro p hp
    exact ((mem_nonzeroIdx p0 p.1 p.2).1 (by simpa using hp)).2.2

/-- Witness for C1 at a concrete input: one pair, one class, prior 1. -/
theorem postprocess_mask_and_score_check :
    (1 : ℕ) = 1
    ∧ ((postprocessImage (matSigmoid (fun q => q + 1) [[4]])
          (matSigmoid (fun q => q + 1) [[2]]) [[1]] [[7]] [[(0:ℚ),0,1,1]]
          [[(0:ℚ),0,2,2]] [0] none).index = (nonzeroIdx [[1]]).map Prod.fst
      ∧ (postprocessImage (matSigmoid (fun q => q + 1) [[4]])
          (matSigmoid (fun q => q + 1) [[2]]) [[1]] [[7]] [[(0:ℚ),0,1,1]]
          [[(0:ℚ),0,2,2]] [0] none).prediction = (nonzeroIdx [[1]]).map Prod.snd
      ∧ (∀ i j, (i, j) ∈ nonzeroIdx [[(1:ℚ)]]
          ↔ i < ([[(1:ℚ)]] : List (List ℚ)).length
            ∧ j < (([[(1:ℚ)]] : List (List ℚ)).getD i []).length
            ∧ get2 [[(1:ℚ)]] i j ≠ 0)
      ∧ (postprocessImage (matSigmoid (fun q => q + 1) [[4]])
          (matSigmoid (fun q => q + 1) [[2]]) [[1]] [[7]] [[(0:ℚ),0,1,1]]
          [[(0:ℚ),0,2,2]] [0] none).scores
          = (nonzeroIdx [[1]]).map (fun p =>
              ((fun q => q + 1) (get2 [[2]] p.1 p.2))
                * (get2 [[1]] p.1 p.2 * get2 [[7]] p.1 p.2)
                * ((fun q => q + 1) (get2 [[4]] p.1 (([0] : List ℕ).getD p.1 0))))
      ∧ (∀ p ∈ nonzeroIdx [[(1:ℚ)]], get2 [[1]] p.1 p.2 ≠ 0)) :=
  ⟨rfl, postprocess_mask_and_score (fun q => q + 1) [[2]] [[4]] [[1]] [[7]]
    [[(0:ℚ),0,1,1]] [[(0:ℚ),0,2,2]] [0] none rfl rfl
    (fun i hi => by simp only [List.length_singleton, Nat.lt_one_iff] at hi; subst hi; rfl)
    (fun i hi => by simp only [List.length_singleton, Nat.lt_one_iff] at hi; subst hi; decide)⟩

/-! ## Loss normalisation (interaction_head.py, lines 139-180) -/

/-- Fields of one postprocessed result record that the two loss functions
read (lines 144-149 and 163-169). -/
structure LossIn where
  scores : List ℚ
  labels : List ℚ
  weights : List ℚ
  binaryLabels : List ℚ

/-- Embeds `torch.cat(scores)` over the per-image result records. -/
def catScores (rs : List LossIn) : List ℚ := (rs.map LossIn.scores).flatten

/-- Embeds `torch.cat(labels)` over the per-image result records. -/
def catLabels (rs : List LossIn) : List ℚ := (rs.map LossIn.labels).flatten

/-- Embeds `torch.cat(weights)` over the per-image result records. -/
def catWeights (rs : List LossIn) : List ℚ := (rs.map LossIn.weights).flatten

/-- Embeds `torch.cat(binary labels)` over the per-image result records. -/
def catBinary (rs : List LossIn) : List ℚ := (rs.map LossIn.binaryLabels).flatten

/-- Embeds `n_p = len(torch.nonzero(labels))` (lines 150 and 170): the
number of non-zero entries of a 1-D tensor. -/
def numPositive (l : List ℚ) : ℕ := (l.filter (fun q => decide (q ≠ 0))).length

/-- Embeds `compute_interaction_classification_loss` (lines 139-160) in
non-distributed mode.  `binary_focal_loss` lives in the external `ops`
module and is the opaque parameter `focal` (gamma, inputs, targets ↦
sum-reduced loss). -/
def classificationLoss (focal : ℚ → List ℚ → List ℚ → ℚ) (γ : ℚ)
    (rs : List LossIn) : ℚ :=
  focal γ (catScores rs) (catLabels rs) / (numPositive (catLabels rs) : ℚ)

/-- Embeds `compute_interaction_classification_loss` in distributed mode
(lines 151-156): every worker sums the local positive counts with
`all_reduce` and divides by `world_size`, then normalises its local
sum-reduced focal loss by that average. -/
def classificationLossDist (focal : ℚ → List ℚ → List ℚ → ℚ) (γ : ℚ)
    (world : List (List LossIn)) (i : ℕ) : ℚ :=
  focal γ (catScores (world.getD i [])) (catLabels (world.getD i []))
    / (((world.map (fun rs => (numPositive (catLabels rs) : ℚ))).sum)
        / (world.length : ℚ))

/-- Embeds `compute_interactiveness_loss` (lines 162-180) in
non-distributed mode; the source hard-codes gamma 0.5 at line 178. -/
def interactivenessLoss (focal : ℚ → List ℚ → List ℚ → ℚ)
    (rs : List LossIn) : ℚ :=
  focal (1/2) (catWeights rs) (catBinary rs) / (numPositive (catBinary rs) : ℚ)

/-- Embeds `compute_interactiveness_loss` in distributed mode
(lines 171-176). -/
def interactivenessLossDist (focal : ℚ → List ℚ → List ℚ → ℚ)
    (world : List (List LossIn)) (i : ℕ) : ℚ :=
  focal (1/2) (catWeights (world.getD i [])) (catBinary (world.getD i []))
    / (((world.map (fun rs => (numPositive (catBinary rs) : ℚ))).sum)
        / (world.length : ℚ))

/-- C6.  For a batch with a non-zero positive count, the non-distributed
interaction-classification loss (and likewise the interactiveness loss) is
the sum-reduced focal loss divided by the number of positive labels in the
batch; in distributed mode with `k` workers, worker `i` divides its local
sum-reduced focal loss by `(Σ_j p_j) / k` where `p_j` is worker `j`'s
positive count — the same divisor for every worker. -/
theorem loss_normalized_by_positive_count
    (focal : ℚ → List ℚ → List ℚ → ℚ) (γ : ℚ) (rs : List LossIn)
    (world : List (List LossIn)) (i : ℕ)
    (_hp : 0 < numPositive (catLabels rs))
    (_hpb : 0 < numPositive (catBinary rs))
    (_hk : 0 < world.length) (_hi : i < world.length) :
    classificationLoss focal γ rs
        = focal γ (catScores rs) (catLabels rs)
          / ((catLabels rs).countP (fun q => decide (q ≠ 0)) : ℚ)
    ∧ interactivenessLoss focal rs
        = focal (1/2) (catWeights rs) (catBinary rs)
          / ((catBinary rs).countP (fun q => decide (q ≠ 0)) : ℚ)
    ∧ classificationLossDist focal γ world i
        = focal γ (catScores (world.getD i [])) (catLabels (world.getD i []))
          / (((world.map (fun w =>
                ((catLabels w).countP (fun q => decide (q ≠ 0)) : ℚ))).sum)
              / (world.length : ℚ))
    ∧ interactivenessLossDist focal world i
        = focal (1/2) (catWeights (world.getD i [])) (catBinary (world.getD i []))
          / (((world.map (fun w =>
                ((catBinary w).countP (fun q => decide (q ≠ 0)) : ℚ))).sum)
              / (world.length : ℚ)) := by
  have hcount : ∀ l : List ℚ,
      numPositive l = l.countP (fun q => decide (q ≠ 0)) := by
    intro l
    rw [numPositive, List.countP_eq_length_filter]
  refine ⟨?_, ?_, ?_, ?_⟩
  · rw [classificationLoss, hcount]
  · rw [interactivenessLoss, hcount]
  · rw [classificationLossDist]
    simp only [hcount]
  · rw [interactivenessLossDist]
    simp only [hcount]

/-- Witness for C6 at a concrete one-worker, one-record batch. -/
theorem loss_normalized_by_positive_count_check :
    (0 < numPositive (catLabels [⟨[1], [1], [1], [1]⟩])
      ∧ 0 < numPositive (catBinary [⟨[1], [1], [1], [1]⟩])
      ∧ 0 < ([[(⟨[1], [1], [1], [1]⟩ : LossIn)]] : List (List LossIn)).length
      ∧ 0 < ([[(⟨[1], [1], [1], [1]⟩ : LossIn)]] : List (List LossIn)).length)
    ∧ classificationLoss (fun g s _ => g + s.sum) 0 [⟨[1], [1], [1], [1]⟩]
        = (fun (g : ℚ) (s : List ℚ) (_ : List ℚ) => g + s.sum) 0
            (catScores [⟨[1], [1], [1], [1]⟩]) (catLabels [⟨[1], [1], [1], [1]⟩])
          / ((catLabels [⟨[1], [1], [1], [1]⟩]).countP (fun q => decide (q ≠ 0)) : ℚ) :=
  ⟨⟨by decide, by decide, by decide, by decide⟩,
    (loss_normalized_by_positive_count (fun g s _ => g + s.sum) 0
      [⟨[1], [1], [1], [1]⟩] [[⟨[1], [1], [1], [1]⟩]] 0
      (by decide) (by decide) (by decide) (by decide)).1⟩

/-- C7.  The loss computation has no guard for a batch with zero positive
labels: at such an input (here a single record whose labels are all zero)
the positive count is 0 and the returned value is the focal sum divided by
zero — the PyTorch source silently produces an inf/NaN tensor instead of
raising a distinguishable error. -/
theorem classification_loss_divides_by_zero_positives
    (focal : ℚ → List ℚ → List ℚ → ℚ) (γ : ℚ) :
    numPositive (catLabels [⟨[1/2], [0], [1/2], [0]⟩]) = 0
    ∧ classificationLoss focal γ [⟨[1/2], [0], [1/2], [0]⟩]
        = focal γ [1/2] [0] / 0
    ∧ numPositive (catBinary [⟨[1/2], [0], [1/2], [0]⟩]) = 0
    ∧ interactivenessLoss focal [⟨[1/2], [0], [1/2], [0]⟩]
        = focal (1/2) [1/2] [0] / 0 := by
  refine ⟨by decide, ?_, by decide, ?_⟩
  · have h : numPositive (catLabels [(⟨[1/2], [0], [1/2], [0]⟩ : LossIn)]) = 0 := by
      decide
    rw [classificationLoss, h, Nat.cast_zero]
    rfl
  · have h : numPositive (catBinary [(⟨[1/2], [0], [1/2], [0]⟩ : LossIn)]) = 0 := by
      decide
    rw [interactivenessLoss, h, Nat.cast_zero]
    rfl

/-! ## `AttentionHead` and `MessageAttentionHead` (lines 305-364) -/

/-- A learned affine layer `nn.Linear`: a weight matrix (rows are output
coordinates) and a bias vector, over `ℚ`. -/
structure Linear where
  weight : List (List ℚ)
  bias : List ℚ

/-- Inner product of two rational vectors. -/
def dotQ (a b : List ℚ) : ℚ := ((a.zip b).map (fun p => p.1 * p.2)).sum

/-- Application of an `nn.Linear` layer to one feature vector. -/
def linApply (f : Linear) (v : List ℚ) : List ℚ :=
  (f.weight.zip f.bias).map (fun p => dotQ p.1 v + p.2)

/-- Elementwise `F.relu` on a feature vector. -/
def vrelu (v : List ℚ) : List ℚ := v.map (fun q => max q 0)

/-- Elementwise product of two feature vectors. -/
def vmul (a b : List ℚ) : List ℚ := (a.zip b).map (fun p => p.1 * p.2)

/-- Elementwise sum of two feature vectors. -/
def vadd (a b : List ℚ) : List ℚ := (a.zip b).map (fun p => p.1 + p.2)

/-- Embeds `torch.stack(xs).sum(dim=0)` over a non-empty list of equal
width vectors. -/
def sumStack : List (List ℚ) → List ℚ
  | [] => []
  | v :: vs => vs.foldl vadd v

/-- One cardinality branch of the fusion units: the `i`-th entries of the
three `nn.ModuleList`s `fc_1`, `fc_2`, `fc_3` (lines 314-325). -/
structure AttBranch where
  fc1 : Linear
  fc2 : Linear
  fc3 : Linear

/-- Embeds `AttentionHead.forward` (lines 326-331): each branch projects the
appearance and spatial features, takes a rectified elementwise product,
projects to full width; branches are summed and the sum rectified. -/
def attentionHeadForward (br : List AttBranch) (appearance spatial : List ℚ) :
    List ℚ :=
  vrelu (sumStack (br.map (fun b =>
    linApply b.fc3 (vrelu (vmul (linApply b.fc1 appearance)
      (linApply b.fc2 spatial))))))

/-- Rowwise application of a layer to a 1-D stack of feature vectors. -/
def mapRows (f : List ℚ → List ℚ) (t : ℕ → List ℚ) : ℕ → List ℚ :=
  fun i => f (t i)

/-- Cellwise application of a layer to a 2-D grid of feature vectors. -/
def mapCells (f : List ℚ → List ℚ) (t : ℕ → ℕ → List ℚ) : ℕ → ℕ → List ℚ :=
  fun i j => f (t i j)

/-- Embeds `.repeat(n, 1, 1)`: broadcast a stack of vectors along a new
leading dimension. -/
def repeatDim0 (t : ℕ → List ℚ) : ℕ → ℕ → List ℚ := fun _ i => t i

/-- Embeds `.permute([1, 0, 2])`: swap the two leading dimensions of a grid
of vectors. -/
def permute102 (t : ℕ → ℕ → List ℚ) : ℕ → ℕ → List ℚ := fun j i => t i j

/-- Cellwise elementwise product of two grids of vectors. -/
def mulCells (a b : ℕ → ℕ → List ℚ) : ℕ → ℕ → List ℚ :=
  fun i j => vmul (a i j) (b i j)

/-- Embeds `torch.stack(xs).sum(dim=0)` on grids of vectors. -/
def sumStackCells (ts : List (ℕ → ℕ → List ℚ)) : ℕ → ℕ → List ℚ :=
  fun i j => sumStack (ts.map (fun t => t i j))

/-- Embeds `MessageAttentionHead._forward_human_nodes` (lines 344-352):
`fc_1(appearance).repeat(n,1,1) * fc_2(spatial).permute([1,0,2])`, rectified,
then `fc_3`, summed over branches.  Note: no outer `F.relu`. -/
def messageHumanForward (br : List AttBranch) (appearance : ℕ → List ℚ)
    (spatial : ℕ → ℕ → List ℚ) : ℕ → ℕ → List ℚ :=
  sumStackCells (br.map (fun b =>
    mapCells (linApply b.fc3) (mapCells vrelu (mulCells
      (repeatDim0 (mapRows (linApply b.fc1) appearance))
      (permute102 (mapCells (linApply b.fc2) spatial))))))

/-- Embeds `MessageAttentionHead._forward_object_nodes` (lines 353-361):
`fc_1(appearance).repeat(n_h,1,1) * fc_2(spatial)`, rectified, then `fc_3`,
summed over branches.  Note: no outer `F.relu`. -/
def messageObjectForward (br : List AttBranch) (appearance : ℕ → List ℚ)
    (spatial : ℕ → ℕ → List ℚ) : ℕ → ℕ → List ℚ :=
  sumStackCells (br.map (fun b =>
    mapCells (linApply b.fc3) (mapCells vrelu (mulCells
      (repeatDim0 (mapRows (linApply b.fc1) appearance))
      (mapCells (linApply b.fc2) spatial)))))

/-- Counterexample to C8 as stated: with one branch whose output projection
is negation, the broadcast unit produces `[-1]` at grid position (0,0) while
the pairwise unit on the corresponding vectors produces `[0]` — the two are
not "exactly the same value"; the broadcast variants omit the pairwise
unit's final rectification (line 327 versus lines 347-352 and 356-361). -/
theorem message_head_differs_from_attention_head :
    messageHumanForward [⟨⟨[[1]], [0]⟩, ⟨[[1]], [0]⟩, ⟨[[-1]], [0]⟩⟩]
        (fun _ => [1]) (fun _ _ => [1]) 0 0 = [-1]
    ∧ messageObjectForward [⟨⟨[[1]], [0]⟩, ⟨[[1]], [0]⟩, ⟨[[-1]], [0]⟩⟩]
        (fun _ => [1]) (fun _ _ => [1]) 0 0 = [-1]
    ∧ attentionHeadForward [⟨⟨[[1]], [0]⟩, ⟨[[1]], [0]⟩, ⟨[[-1]], [0]⟩⟩] [1] [1]
        = [0]
    ∧ ([-1] : List ℚ) ≠ [0] := by
  refine ⟨?_, ?_, ?_, by norm_num⟩ <;>
    norm_num [messageHumanForward, messageObjectForward, attentionHeadForward,
      sumStackCells, mapCells, mulCells, repeatDim0, permute102, mapRows,
      sumStack, linApply, dotQ, vmul, vrelu, max_def]

/-- C8 (amended).  At every grid position, each broadcast fusion variant
computes exactly the pre-activation value of the pairwise fusion unit
applied with the same weights to the corresponding appearance and spatial
vectors: rectifying the broadcast entry recovers the pairwise output, and
this is the only difference beyond shape handling. -/
theorem message_head_matches_attention_head_up_to_relu
    (br : List AttBranch) (appearance : ℕ → List ℚ)
    (spatial : ℕ → ℕ → List ℚ) (i j : ℕ) :
    vrelu (messageHumanForward br appearance spatial j i)
        = attentionHeadForward br (appearance i) (spatial i j)
    ∧ vrelu (messageObjectForward br appearance spatial i j)
        = attentionHeadForward br (appearance j) (spatial i j) := by
  constructor <;>
    (simp only [messageHumanForward, messageObjectForward, sumStackCells,
      List.map_map, attentionHeadForward]; rfl)

/-! ## `GraphHead` (interaction_head.py, lines 366-637) -/

/-- Per-image inputs of `GraphHead.forward`: the parallel lists
`box_coords`, `box_labels`, `box_scores` produced by preprocessing. -/
structure GImage where
  coords : List (List ℚ)
  labels : List ℕ
  scores : List ℚ

/-- Construction-time configuration of `GraphHead` (lines 367-389):
`human_idx`, `num_cls`, `representation_size` and the dataset-provided
`object_class_to_target_class` mapping. -/
structure GCfg where
  human_idx : ℕ
  num_cls : ℕ
  representation_size : ℕ
  obj_to_target : ℕ → List ℕ

/-- Embeds `n_h = torch.sum(labels == self.human_idx)` (line 532). -/
def nH (cfg : GCfg) (labels : List ℕ) : ℕ :=
  labels.countP (fun l => l == cfg.human_idx)

/-- The index-assignment loop of `compute_prior_scores` (lines 487-488) as a
functional array: later writes shadow earlier ones, unwritten cells stay at
the `torch.zeros` initial value; `v i` is the value written to row `i`
(`s_h[pair_idx]` or `s_o[pair_idx]`). -/
def scatterFold (v : ℕ → ℚ) (upd : List (ℕ × ℕ)) : ℕ → ℕ → ℚ :=
  upd.foldl (fun m p => fun i c => if i = p.1 ∧ c = p.2 then v p.1 else m i c)
    (fun _ _ => 0)

/-- Materialises an `m × k` functional array into a row-major matrix. -/
def matOfFun (m k : ℕ) (f : ℕ → ℕ → ℚ) : List (List ℚ) :=
  (List.range m).map (fun i => (List.range k).map (f i))

/-- Embeds `target_cls_idx` (lines 480-481): the mapped interaction-class
lists of the objects of the pairs `y`. -/
def targetClsIdx (cfg : GCfg) (y objectClass : List ℕ) : List (List ℕ) :=
  y.map (fun j => cfg.obj_to_target (objectClass.getD j 0))

/-- Embeds `pair_idx` and `flat_target_idx` (lines 483-485), fused as the
list of written (pair index, interaction class) coordinates. -/
def scatterUpdates (cfg : GCfg) (y objectClass : List ℕ) : List (ℕ × ℕ) :=
  (List.range (targetClsIdx cfg y objectClass).length).flatMap
    (fun i => ((targetClsIdx cfg y objectClass).getD i []).map (fun t => (i, t)))

/-- Embeds `GraphHead.compute_prior_scores` (lines 464-490): `prior_h` and
`prior_o` start as `torch.zeros(len(x), num_cls)`; the squared scores
`s_h = scores[x]**2`, `s_o = scores[y]**2` are scattered into the mapped
class slots.  Returned as the stacked pair (line 490). -/
def computePriorScores (cfg : GCfg) (x y : List ℕ) (scores : List ℚ)
    (objectClass : List ℕ) : List (List ℚ) × List (List ℚ) :=
  (matOfFun x.length cfg.num_cls
      (scatterFold (fun i => (x.map (fun a => (scores.getD a 0) ^ 2)).getD i 0)
        (scatterUpdates cfg y objectClass)),
    matOfFun x.length cfg.num_cls
      (scatterFold (fun i => (y.map (fun a => (scores.getD a 0) ^ 2)).getD i 0)
        (scatterUpdates cfg y objectClass)))

/-- Embeds the flattened meshgrid `x, y = torch.meshgrid(arange(n_h),
arange(n))` (lines 553-556), in row-major order. -/
def allPairs (n_h n : ℕ) : List (ℕ × ℕ) :=
  (List.range n_h).flatMap (fun i => (List.range n).map (fun j => (i, j)))

/-- Embeds `x_keep, y_keep = torch.nonzero(x != y).unbind(1)` (line 558):
the meshgrid pairs with the self-pairs removed. -/
def keptPairs (n_h n : ℕ) : List (ℕ × ℕ) :=
  (allPairs n_h n).filter (fun p => !(p.1 == p.2))

/-- Per-image outputs appended by the loop of `GraphHead.forward`
(lines 536-544 and 610-632).  `labelsEntry` is `some` exactly when the loop
appended to `all_labels` for this image. -/
structure GOut where
  pairFeats : List (List ℚ)
  boxesH : List (List ℚ)
  boxesO : List (List ℚ)
  objCls : List ℕ
  prior : List (List ℚ) × List (List ℚ)
  labelsEntry : Option (List (List ℚ))

instance : Inhabited GOut := ⟨⟨[], [], [], [], ([], []), none⟩⟩

/-- Embeds the skip branch of `GraphHead.forward` (lines 535-545): the
empty structures emitted for an image with no humans or at most one
detection.  Note `torch.zeros(0, k)` is the empty list of rows. -/
def skipOut (cfg : GCfg) : GOut :=
  { pairFeats := zerosMat 0 (2 * cfg.representation_size)
    boxesH := zerosMat 0 4
    boxesO := zerosMat 0 4
    objCls := List.replicate 0 0
    prior := (zerosMat 0 cfg.num_cls, zerosMat 0 cfg.num_cls)
    labelsEntry := some (zerosMat 0 cfg.num_cls) }

/-- Embeds the humans-first validation `torch.all(labels[:n_h] ==
human_idx)` (line 546). -/
def humansFirstCheck (cfg : GCfg) (labels : List ℕ) : Bool :=
  (labels.take (nH cfg labels)).all (fun l => l == cfg.human_idx)

/-- Embeds the main branch of the loop of `GraphHead.forward`
(lines 549-632) for one image.  The message-passing rounds, spatial head
and the two attention heads only shape the pair features and are taken as
the opaque network parameter `net`, applied to the node-encoding slice
`box_features[counter : counter + n]` (line 549), the image and the kept
pairs; `associate_with_ground_truth` is likewise the opaque parameter
`assoc`.  The box, object-class and prior outputs follow lines 626-632. -/
def mainOut {τ : Type} (cfg : GCfg)
    (net : List (List ℚ) → GImage → List (ℕ × ℕ) → List (List ℚ))
    (assoc : List (List ℚ) → List (List ℚ) → τ → List (List ℚ))
    (bf : List (List ℚ)) (tgt : Option τ) (counter : ℕ) (img : GImage) : GOut :=
  { pairFeats := net ((bf.drop counter).take img.coords.length) img
      (keptPairs (nH cfg img.labels) img.coords.length)
    boxesH := (keptPairs (nH cfg img.labels) img.coords.length).map
      (fun p => img.coords.getD p.1 [])
    boxesO := (keptPairs (nH cfg img.labels) img.coords.length).map
      (fun p => img.coords.getD p.2 [])
    objCls := (keptPairs (nH cfg img.labels) img.coords.length).map
      (fun p => img.labels.getD p.2 0)
    prior := computePriorScores cfg
      ((keptPairs (nH cfg img.labels) img.coords.length).map Prod.fst)
      ((keptPairs (nH cfg img.labels) img.coords.length).map Prod.snd)
      img.scores img.labels
    labelsEntry := tgt.map (fun t =>
      assoc ((keptPairs (nH cfg img.labels) img.coords.length).map
          (fun p => img.coords.getD p.1 []))
        ((keptPairs (nH cfg img.labels) img.coords.length).map
          (fun p => img.coords.getD p.2 [])) t) }

/-- One iteration of the loop of `GraphHead.forward` (lines 528-634): the
skip branch keeps the running offset `counter` unchanged (the `continue` on
line 545 bypasses the `counter += n` of line 634), the two `ValueError`s of
lines 547 and 561 surface as `Except.error`, and the main branch advances
`counter` by the image's detection count. -/
def graphHeadImage {τ : Type} [Inhabited τ] (cfg : GCfg)
    (net : List (List ℚ) → GImage → List (ℕ × ℕ) → List (List ℚ))
    (assoc : List (List ℚ) → List (List ℚ) → τ → List (List ℚ))
    (bf : List (List ℚ)) (targets : Option (List τ)) (counter bIdx : ℕ)
    (img : GImage) : Except String (GOut × ℕ) :=
  if nH cfg img.labels = 0 ∨ img.coords.length ≤ 1 then
    .ok (skipOut cfg, counter)
  else if ¬ humansFirstCheck cfg img.labels then
    .error "Human detections are not permuted to the top"
  else if (keptPairs (nH cfg img.labels) img.coords.length).length = 0 then
    .error "There are no valid human-object pairs"
  else
    .ok (mainOut cfg net assoc bf (targets.map (fun ts => ts.getD bIdx default))
      counter img, counter + img.coords.length)

/-- The loop of `GraphHead.forward` over the images of the batch, threading
the mutable `counter` (initialised 0 at line 524) and the image index used
to select `targets[b_idx]`. -/
def graphHeadGo {τ : Type} [Inhabited τ] (cfg : GCfg)
    (net : List (List ℚ) → GImage → List (ℕ × ℕ) → List (List ℚ))
    (assoc : List (List ℚ) → List (List ℚ) → τ → List (List ℚ))
    (bf : List (List ℚ)) (targets : Option (List τ)) :
    ℕ → ℕ → List GImage → Except String (List GOut)
  | _, _, [] => .ok []
  | counter, bIdx, img :: rest =>
    Except.bind (graphHeadImage cfg net assoc bf targets counter bIdx img)
      (fun oc => Except.map (fun outs => oc.1 :: outs)
        (graphHeadGo cfg net assoc bf targets oc.2 (bIdx + 1) rest))

/-- Embeds `GraphHead.forward` (lines 492-637): the batched box features
are first mapped rowwise through the box head MLP (line 520, the opaque
parameter `boxHead`), then the per-image loop runs with `counter = 0`. -/
def graphHeadForward {τ : Type} [Inhabited τ] (cfg : GCfg)
    (boxHead : List ℚ → List ℚ)
    (net : List (List ℚ) → GImage → List (ℕ × ℕ) → List (List ℚ))
    (assoc : List (List ℚ) → List (List ℚ) → τ → List (List ℚ))
    (bfRaw : List (List ℚ)) (imgs : List GImage)
    (targets : Option (List τ)) : Except String (List GOut) :=
  graphHeadGo cfg net assoc (bfRaw.map boxHead) targets 0 0 imgs

/-- The `all_labels` list returned by `GraphHead.forward`: the per-image
entries that were actually appended, in order. -/
def allLabels (outs : List GOut) : List (List (List ℚ)) :=
  outs.filterMap GOut.labelsEntry

/-- The skip condition of line 535 as a Boolean on an image. -/
def skipCond (cfg : GCfg) (img : GImage) : Bool :=
  (nH cfg img.labels == 0) || decide (img.coords.length ≤ 1)

/-- Embeds lines 208-209 of `InteractionHead.postprocess`: when the labels
list is empty it is replaced by one `None` per image of the batch. -/
def postprocessLabels (labels : List (List (List ℚ))) (numBoxes : List ℕ) :
    List (Option (List (List ℚ))) :=
  if labels.length = 0 then List.replicate numBoxes.length none
  else labels.map some

/-- Unfolding of the scatter loop from any initial array: a cell holds the
written value when its coordinate occurs among the updates, otherwise the
initial value (later writes shadow earlier ones, but every write to row `i`
carries the same value `v i`). -/
theorem scatterFold_go (v : ℕ → ℚ) (upd : List (ℕ × ℕ)) (m : ℕ → ℕ → ℚ)
    (i c : ℕ) :
    (upd.foldl (fun m p => fun i c => if i = p.1 ∧ c = p.2 then v p.1 else m i c) m) i c
      = if (i, c) ∈ upd then v i else m i c := by
  induction upd generalizing m with
  | nil => simp
  | cons p ps ih =>
    obtain ⟨p1, p2⟩ := p
    simp only [List.foldl_cons, List.mem_cons, Prod.mk.injEq]
    rw [ih]
    by_cases hmem : (i, c) ∈ ps
    · simp [hmem]
    · by_cases h1 : i = p1 ∧ c = p2
      · simp [hmem, h1, h1.1]
      · simp [hmem, h1]

/-- The scatter loop started from `torch.zeros`: a cell is the written
value or zero. -/
theorem scatterFold_eq (v : ℕ → ℚ) (upd : List (ℕ × ℕ)) (i c : ℕ) :
    scatterFold v upd i c = if (i, c) ∈ upd then v i else 0 := by
  rw [scatterFold, scatterFold_go]

/-- In-range lookup commutes with `map`, for any defaults. -/
theorem getD_map_lt {α β : Type _} (g : α → β) (l : List α) (i : ℕ) (d : α)
    (d2 : β) (hi : i < l.length) : (l.map g).getD i d2 = g (l.getD i d) := by
  rw [List.getD_eq_getElem _ _ (by simpa using hi), List.getElem_map,
    List.getD_eq_getElem _ _ hi]

/-- In-range lookup on `List.range`. -/
theorem getD_range (n i : ℕ) (h : i < n) : (List.range n).getD i 0 = i := by
  rw [List.getD_eq_getElem _ _ (by simpa using h)]
  simp

/-- In-range entries of a materialised functional array. -/
theorem get2_matOfFun (m k : ℕ) (f : ℕ → ℕ → ℚ) (i c : ℕ)
    (hi : i < m) (hc : c < k) : get2 (matOfFun m k f) i c = f i c := by
  unfold get2 matOfFun
  rw [getD_map_lt _ (List.range m) i 0 [] (by simpa using hi),
    getD_map_lt _ (List.range k) c 0 0 (by simpa using hc),
    getD_range m i hi, getD_range k c hc]

/-- A (pair, class) coordinate is written by `compute_prior_scores` exactly
when the pair index is in range and the class is in the mapped class list
of the pair's object. -/
theorem mem_scatterUpdates (cfg : GCfg) (y objectClass : List ℕ) (i c : ℕ) :
    (i, c) ∈ scatterUpdates cfg y objectClass
      ↔ i < y.length ∧ c ∈ cfg.obj_to_target (objectClass.getD (y.getD i 0) 0) := by
  unfold scatterUpdates
  simp only [List.mem_flatMap, List.mem_range, List.mem_map]
  constructor
  · rintro ⟨a, ha, t, ht, heq⟩
    obtain ⟨rfl, rfl⟩ : a = i ∧ t = c :=
      ⟨congrArg Prod.fst heq, congrArg Prod.snd heq⟩
    rw [targetClsIdx, List.length_map] at ha
    rw [targetClsIdx, getD_map_lt _ y a 0 [] ha] at ht
    exact ⟨ha, ht⟩
  · rintro ⟨hi, hc⟩
    refine ⟨i, ?_, c, ?_, rfl⟩
    · rw [targetClsIdx, List.length_map]; exact hi
    · rw [targetClsIdx, getD_map_lt _ y i 0 [] hi]; exact hc

/-- The human-prior plane of `compute_prior_scores`. -/
theorem computePriorScores_fst (cfg : GCfg) (x y : List ℕ) (scores : List ℚ)
    (objectClass : List ℕ) :
    (computePriorScores cfg x y scores objectClass).1
      = matOfFun x.length cfg.num_cls
          (scatterFold (fun i => (x.map (fun a => (scores.getD a 0) ^ 2)).getD i 0)
            (scatterUpdates cfg y objectClass)) := rfl

/-- The object-prior plane of `compute_prior_scores`. -/
theorem computePriorScores_snd (cfg : GCfg) (x y : List ℕ) (scores : List ℚ)
    (objectClass : List ℕ) :
    (computePriorScores cfg x y scores objectClass).2
      = matOfFun x.length cfg.num_cls
          (scatterFold (fun i => (y.map (fun a => (scores.getD a 0) ^ 2)).getD i 0)
            (scatterUpdates cfg y objectClass)) := rfl

/-- C4.  In `GraphHead.compute_prior_scores`, for pair `i` and interaction
class `c`: when `c` is not in the mapped class list of the pair's object
class, both the human-prior and the object-prior entries are exactly zero;
when `c` is mapped, the human-prior equals the human detection's confidence
score squared and the object-prior equals the object detection's confidence
score squared. -/
theorem prior_scores_masked_by_class_mapping
    (cfg : GCfg) (x y : List ℕ) (scores : List ℚ) (objectClass : List ℕ)
    (i c : ℕ) (hxy : y.length = x.length) (hi : i < x.length)
    (hc : c < cfg.num_cls) :
    (c ∈ cfg.obj_to_target (objectClass.getD (y.getD i 0) 0) →
      get2 (computePriorScores cfg x y scores objectClass).1 i c
          = (scores.getD (x.getD i 0) 0) ^ 2
      ∧ get2 (computePriorScores cfg x y scores objectClass).2 i c
          = (scores.getD (y.getD i 0) 0) ^ 2)
    ∧ (c ∉ cfg.obj_to_target (objectClass.getD (y.getD i 0) 0) →
      get2 (computePriorScores cfg x y scores objectClass).1 i c = 0
      ∧ get2 (computePriorScores cfg x y scores objectClass).2 i c = 0) := by
  have hiy : i < y.length := by omega
  constructor
  · intro hmem
    have hup : (i, c) ∈ scatterUpdates cfg y objectClass :=
      (mem_scatterUpdates cfg y objectClass i c).2 ⟨hiy, hmem⟩
    constructor
    · rw [computePriorScores_fst, get2_matOfFun _ _ _ _ _ hi hc,
        scatterFold_eq, if_pos hup, getD_map_lt _ x i 0 0 hi]
    · rw [computePriorScores_snd, get2_matOfFun _ _ _ _ _ hi hc,
        scatterFold_eq, if_pos hup, getD_map_lt _ y i 0 0 hiy]
  · intro hmem
    have hup : (i, c) ∉ scatterUpdates cfg y objectClass := fun hcon =>
      hmem ((mem_scatterUpdates cfg y objectClass i c).1 hcon).2
    constructor
    · rw [computePriorScores_fst, get2_matOfFun _ _ _ _ _ hi hc,
        scatterFold_eq, if_neg hup]
    · rw [computePriorScores_snd, get2_matOfFun _ _ _ _ _ hi hc,
        scatterFold_eq, if_neg hup]

/-- Witness for C4: one pair whose object (class 1) maps to interaction
class 1 only; the priors at class 1 are the squared scores, at class 0 both
vanish. -/
theorem prior_scores_masked_by_class_mapping_check :
    ((1 : ℕ) ∈ ([1] : List ℕ) →
      get2 (computePriorScores ⟨0, 2, 1, fun o => if o = 1 then [1] else []⟩
          [0] [1] [1/2, 1/3] [0, 1]).1 0 1 = (1/2 : ℚ) ^ 2
      ∧ get2 (computePriorScores ⟨0, 2, 1, fun o => if o = 1 then [1] else []⟩
          [0] [1] [1/2, 1/3] [0, 1]).2 0 1 = (1/3 : ℚ) ^ 2)
    ∧ ((1 : ℕ) ∉ ([1] : List ℕ) →
      get2 (computePriorScores ⟨0, 2, 1, fun o => if o = 1 then [1] else []⟩
          [0] [1] [1/2, 1/3] [0, 1]).1 0 1 = 0
      ∧ get2 (computePriorScores ⟨0, 2, 1, fun o => if o = 1 then [1] else []⟩
          [0] [1] [1/2, 1/3] [0, 1]).2 0 1 = 0) :=
  prior_scores_masked_by_class_mapping ⟨0, 2, 1, fun o => if o = 1 then [1] else []⟩
    [0] [1] [1/2, 1/3] [0, 1] 0 1 rfl (by decide) (by decide)

/-- Commutativity of Boolean equality on naturals. -/
theorem natBeqComm (a b : ℕ) : (a == b) = (b == a) := by
  by_cases h : a = b
  · subst h; rfl
  · rw [beq_eq_false_iff_ne.mpr h, beq_eq_false_iff_ne.mpr (Ne.symm h)]

/-- One meshgrid row `i` keeps `n - 1` pairs after removing the self pair. -/
theorem length_filter_row (n i : ℕ) (hi : i < n) :
    (((List.range n).map (fun j => (i, j))).filter
      (fun p => !(p.1 == p.2))).length = n - 1 := by
  rw [List.filter_map, List.length_map]
  have h1 : ((List.range n).filter ((fun p : ℕ × ℕ => !(p.1 == p.2)) ∘ (fun j => (i, j))))
      = (List.range n).filter (fun x => x != i) := by
    apply List.filter_congr
    intro j _
    show (!(i == j)) = (j != i)
    have hb : (j != i) = (!(j == i)) := rfl
    rw [hb, natBeqComm]
  rw [h1, ← List.Nodup.erase_eq_filter (List.nodup_range n) i,
    List.length_erase_of_mem (List.mem_range.2 hi), List.length_range]

/-- Pair count of the pruned meshgrid: `n_h * n` candidates minus the `n_h`
self pairs. -/
theorem length_keptPairs (n_h n : ℕ) (h : n_h ≤ n) :
    (keptPairs n_h n).length = n_h * n - n_h := by
  have key : ∀ L : List ℕ, (∀ i ∈ L, i < n) →
      ((L.flatMap (fun i => (List.range n).map (fun j => (i, j)))).filter
        (fun p => !(p.1 == p.2))).length = L.length * (n - 1) := by
    intro L
    induction L with
    | nil => intro _; simp
    | cons a t ih =>
      intro hmem
      rw [List.flatMap_cons, List.filter_append, List.length_append,
        length_filter_row n a (hmem a (List.mem_cons_self a t)),
        ih (fun i hi => hmem i (List.mem_cons_of_mem a hi)),
        List.length_cons, Nat.succ_mul]
      exact Nat.add_comm _ _
  rw [keptPairs, allPairs,
    key (List.range n_h) (fun i hi => lt_of_lt_of_le (List.mem_range.1 hi) h),
    List.length_range]
  exact Nat.mul_pred n_h n

/-- Membership in the pruned meshgrid: exactly the in-range non-diagonal
pairs. -/
theorem mem_keptPairs (n_h n i j : ℕ) :
    (i, j) ∈ keptPairs n_h n ↔ i < n_h ∧ j < n ∧ i ≠ j := by
  simp only [keptPairs, allPairs, List.mem_filter, List.mem_flatMap,
    List.mem_range, List.mem_map, Prod.mk.injEq]
  constructor
  · rintro ⟨⟨a, ha, b, hb, rfl, rfl⟩, hne⟩
    exact ⟨ha, hb, by simpa using hne⟩
  · rintro ⟨hi, hj, hne⟩
    exact ⟨⟨i, hi, j, hj, rfl, rfl⟩, by simpa using hne⟩

/-- C5.  For an image that passes the skip condition, with the humans-first
invariant satisfied, the loop body of `GraphHead.forward` succeeds; the
output pairs are exactly the cross product of human indices and generic
indices minus the self pairs (in meshgrid order), so there are
`n_h·n − n_h` of them, none with equal source indices, and the emitted
human/object boxes are indexed by exactly these pairs. -/
theorem graph_head_pair_enumeration {τ : Type} [Inhabited τ]
    (cfg : GCfg) (net : List (List ℚ) → GImage → List (ℕ × ℕ) → List (List ℚ))
    (assoc : List (List ℚ) → List (List ℚ) → τ → List (List ℚ))
    (bf : List (List ℚ)) (targets : Option (List τ)) (counter bIdx : ℕ)
    (img : GImage)
    (hlen : img.labels.length = img.coords.length)
    (hh : 1 ≤ nH cfg img.labels)
    (hn : 2 ≤ img.coords.length)
    (hf : humansFirstCheck cfg img.labels = true) :
    graphHeadImage cfg net assoc bf targets counter bIdx img
        = Except.ok (mainOut cfg net assoc bf
            (targets.map (fun ts => ts.getD bIdx default)) counter img,
          counter + img.coords.length)
    ∧ (∀ i j, ((i, j) ∈ keptPairs (nH cfg img.labels) img.coords.length)
        ↔ i < nH cfg img.labels ∧ j < img.coords.length ∧ i ≠ j)
    ∧ (keptPairs (nH cfg img.labels) img.coords.length).length
        = nH cfg img.labels * img.coords.length - nH cfg img.labels
    ∧ (∀ p ∈ keptPairs (nH cfg img.labels) img.coords.length, p.1 ≠ p.2)
    ∧ (mainOut cfg net assoc bf (targets.map (fun ts => ts.getD bIdx default))
          counter img).boxesH
        = (keptPairs (nH cfg img.labels) img.coords.length).map
            (fun p => img.coords.getD p.1 [])
    ∧ (mainOut cfg net assoc bf (targets.map (fun ts => ts.getD bIdx default))
          counter img).boxesO
        = (keptPairs (nH cfg img.labels) img.coords.length).map
            (fun p => img.coords.getD p.2 []) := by
  have hcount : nH cfg img.labels ≤ img.coords.length := by
    rw [← hlen]; exact List.countP_le_length _
  have hmem01 : (0, 1) ∈ keptPairs (nH cfg img.labels) img.coords.length :=
    (mem_keptPairs _ _ 0 1).2 ⟨by omega, by omega, by omega⟩
  refine ⟨?_, fun i j => mem_keptPairs _ _ i j, length_keptPairs _ _ hcount,
    ?_, rfl, rfl⟩
  · rw [graphHeadImage, if_neg (by omega), if_neg (by simp [hf]), if_neg (by
      rw [List.length_eq_zero]
      exact List.ne_nil_of_mem hmem01)]
  · intro p hp
    obtain ⟨p1, p2⟩ := p
    exact ((mem_keptPairs _ _ p1 p2).1 hp).2.2

/-- Witness for C5: one human and one object give exactly one kept pair
(1·2 − 1). -/
theorem graph_head_pair_enumeration_check :
    (keptPairs (nH ⟨0, 1, 1, fun _ => [0]⟩
        (⟨[[0,0,1,1],[0,0,2,2]], [0,1], [1,1]⟩ : GImage).labels)
        (⟨[[0,0,1,1],[0,0,2,2]], [0,1], [1,1]⟩ : GImage).coords.length).length
      = nH ⟨0, 1, 1, fun _ => [0]⟩
          (⟨[[0,0,1,1],[0,0,2,2]], [0,1], [1,1]⟩ : GImage).labels
        * (⟨[[0,0,1,1],[0,0,2,2]], [0,1], [1,1]⟩ : GImage).coords.length
        - nH ⟨0, 1, 1, fun _ => [0]⟩
            (⟨[[0,0,1,1],[0,0,2,2]], [0,1], [1,1]⟩ : GImage).labels :=
  (graph_head_pair_enumeration ⟨0, 1, 1, fun _ => [0]⟩ (fun e _ _ => e)
    (fun _ _ (_ : Unit) => []) [[1]] none 0 0
    ⟨[[0,0,1,1],[0,0,2,2]], [0,1], [1,1]⟩ rfl (by decide) (by decide)
    (by decide)).2.2.1

/-- C3.  An image with no human detections or at most one detection in
total is absorbed by the skip branch of `GraphHead.forward`: no error is
raised, the loop continues with the remaining images, and the emitted
structures are the well-formed empty arrays of lines 536-544 — a
`0 × (2·representation_size)` pair-feature matrix, `0 × 4` box matrices, a
length-0 object-class vector, the `2 × 0 × num_cls` prior pair and a
`0 × num_cls` labels entry (all empty row lists). -/
theorem graph_head_skips_degenerate_images {τ : Type} [Inhabited τ]
    (cfg : GCfg) (net : List (List ℚ) → GImage → List (ℕ × ℕ) → List (List ℚ))
    (assoc : List (List ℚ) → List (List ℚ) → τ → List (List ℚ))
    (bf : List (List ℚ)) (targets : Option (List τ)) (counter bIdx : ℕ)
    (img : GImage) (rest : List GImage)
    (h : nH cfg img.labels = 0 ∨ img.coords.length ≤ 1) :
    graphHeadGo cfg net assoc bf targets counter bIdx (img :: rest)
        = Except.map (fun outs => skipOut cfg :: outs)
            (graphHeadGo cfg net assoc bf targets counter (bIdx + 1) rest)
    ∧ (skipOut cfg).pairFeats = zerosMat 0 (2 * cfg.representation_size)
    ∧ (skipOut cfg).pairFeats = []
    ∧ (skipOut cfg).boxesH = zerosMat 0 4 ∧ (skipOut cfg).boxesH = []
    ∧ (skipOut cfg).boxesO = [] ∧ (skipOut cfg).objCls = []
    ∧ (skipOut cfg).prior = (zerosMat 0 cfg.num_cls, zerosMat 0 cfg.num_cls)
    ∧ (skipOut cfg).prior = ([], [])
    ∧ (skipOut cfg).labelsEntry = some [] := by
  refine ⟨?_, rfl, rfl, rfl, rfl, rfl, rfl, rfl, rfl, rfl⟩
  have himg : graphHeadImage cfg net assoc bf targets counter bIdx img
      = Except.ok (skipOut cfg, counter) := by
    rw [graphHeadImage, if_pos h]
  simp only [graphHeadGo, himg, Except.bind]

/-- Witness for C3: a batch whose single image holds one non-human
detection is skipped and the loop finishes cleanly. -/
theorem graph_head_skips_degenerate_images_check :
    graphHeadGo ⟨0, 1, 1, fun _ => [0]⟩ (fun e _ _ => e)
        (fun _ _ (_ : Unit) => []) [[1]] none 0 0 [⟨[[0,0,1,1]], [1], [1]⟩]
      = Except.map (fun outs => skipOut ⟨0, 1, 1, fun _ => [0]⟩ :: outs)
          (graphHeadGo ⟨0, 1, 1, fun _ => [0]⟩ (fun e _ _ => e)
            (fun _ _ (_ : Unit) => []) [[1]] none 0 1 []) :=
  (graph_head_skips_degenerate_images ⟨0, 1, 1, fun _ => [0]⟩ (fun e _ _ => e)
    (fun _ _ (_ : Unit) => []) [[1]] none 0 0 ⟨[[0,0,1,1]], [1], [1]⟩ []
    (Or.inr (by decide))).1

/-- C9 (evaluation at the failing input).  Batch of two images over a
3-row pooled-feature table: image 0 holds one non-human detection (feature
row 0) and is skipped, image 1 holds a human and an object (feature rows 1
and 2).  Because the `continue` of line 545 bypasses `counter += n`
(line 634), the loop reads image 1's node encodings starting at offset 0
instead of 1: with the network instantiated to return its node-encoding
slice, image 1's pair features are rows `[[10], [20]]` — including the
skipped image's row — while the rows that belong to image 1 are
`[[20], [30]]`. -/
theorem node_encoding_offset_desynchronised :
    (graphHeadForward ⟨0, 1, 1, fun _ => [0]⟩ id (fun enc _ _ => enc)
        (fun _ _ (_ : Unit) => []) [[10], [20], [30]]
        [⟨[[0,0,1,1]], [1], [1]⟩, ⟨[[0,0,1,1],[0,0,2,2]], [0,1], [1,1]⟩]
        none).map (fun outs => (outs.getD 1 default).pairFeats)
      = Except.ok [[10], [20]]
    ∧ ((([[(10:ℚ)], [20], [30]].map id).drop
          (⟨[[0,0,1,1]], [1], [1]⟩ : GImage).coords.length).take
          (⟨[[0,0,1,1],[0,0,2,2]], [0,1], [1,1]⟩ : GImage).coords.length)
        = [[20], [30]]
    ∧ ([[(10:ℚ)], [20]] : List (List ℚ)) ≠ [[20], [30]] := by
  refine ⟨?_, by decide, by decide⟩
  rfl

/-- The Boolean form of the skip condition of line 535 agrees with the
condition used by the branch. -/
theorem skipCond_iff (cfg : GCfg) (img : GImage) :
    skipCond cfg img = true
      ↔ (nH cfg img.labels = 0 ∨ img.coords.length ≤ 1) := by
  simp [skipCond]

/-- The labels entry of the skip branch is one empty (`0 × num_cls`)
matrix. -/
theorem skipOut_labelsEntry (cfg : GCfg) :
    (skipOut cfg).labelsEntry = some [] := rfl

/-- Characterisation of the labels list returned by `GraphHead.forward` in
inference mode (no targets): the loop appends exactly one `0 × num_cls`
entry per skipped image (line 544, unconditional) and nothing for a
non-skipped image (the append of lines 610-613 requires targets). -/
theorem allLabels_inference {τ : Type} [Inhabited τ] (cfg : GCfg)
    (net : List (List ℚ) → GImage → List (ℕ × ℕ) → List (List ℚ))
    (assoc : List (List ℚ) → List (List ℚ) → τ → List (List ℚ))
    (bf : List (List ℚ)) :
    ∀ (imgs : List GImage) (counter bIdx : ℕ) (outs : List GOut),
      graphHeadGo cfg net assoc bf (none : Option (List τ)) counter bIdx imgs
          = Except.ok outs →
      allLabels outs = (imgs.filter (skipCond cfg)).map (fun _ => []) := by
  intro imgs
  induction imgs with
  | nil =>
    intro counter bIdx outs h
    simp only [graphHeadGo] at h
    obtain rfl : ([] : List GOut) = outs := Except.ok.inj h
    simp [allLabels]
  | cons img rest ih =>
    intro counter bIdx outs h
    simp only [graphHeadGo] at h
    by_cases hskip : nH cfg img.labels = 0 ∨ img.coords.length ≤ 1
    · have himg : graphHeadImage cfg net assoc bf (none : Option (List τ))
          counter bIdx img = Except.ok (skipOut cfg, counter) := by
        rw [graphHeadImage, if_pos hskip]
      rw [himg] at h
      replace h : Except.map (fun outs => skipOut cfg :: outs)
          (graphHeadGo cfg net assoc bf (none : Option (List τ)) counter
            (bIdx + 1) rest) = Except.ok outs := h
      cases hrest : graphHeadGo cfg net assoc bf (none : Option (List τ))
          counter (bIdx + 1) rest with
      | error e => rw [hrest] at h; exact absurd h (by simp [Except.map])
      | ok outs2 =>
        rw [hrest] at h
        have houts : skipOut cfg :: outs2 = outs := by
          simpa [Except.map] using h
        subst houts
        have hcond : skipCond cfg img = true := (skipCond_iff cfg img).2 hskip
        simp only [allLabels, List.filterMap_cons, skipOut_labelsEntry,
          List.filter_cons, hcond, if_true, List.map_cons]
        exact congrArg (List.cons []) (ih counter (bIdx + 1) outs2 hrest)
    · have hcond : skipCond cfg img = false := by
        rw [Bool.eq_false_iff]
        intro hc
        exact hskip ((skipCond_iff cfg img).1 hc)
      by_cases hhf : humansFirstCheck cfg img.labels
      · by_cases hkp : (keptPairs (nH cfg img.labels) img.coords.length).length = 0
        · have himg : graphHeadImage cfg net assoc bf (none : Option (List τ))
              counter bIdx img
              = Except.error "There are no valid human-object pairs" := by
            rw [graphHeadImage, if_neg hskip, if_neg (by simp [hhf]), if_pos hkp]
          rw [himg] at h
          replace h : (Except.error "There are no valid human-object pairs"
              : Except String (List GOut)) = Except.ok outs := h
          exact absurd h (by simp)
        · have himg : graphHeadImage cfg net assoc bf (none : Option (List τ))
              counter bIdx img
              = Except.ok (mainOut cfg net assoc bf
                  ((none : Option (List τ)).map (fun ts => ts.getD bIdx default))
                  counter img, counter + img.coords.length) := by
            rw [graphHeadImage, if_neg hskip, if_neg (by simp [hhf]), if_neg hkp]
          rw [himg] at h
          replace h : Except.map (fun outs =>
              mainOut cfg net assoc bf
                ((none : Option (List τ)).map (fun ts => ts.getD bIdx default))
                counter img :: outs)
              (graphHeadGo cfg net assoc bf (none : Option (List τ))
                (counter + img.coords.length) (bIdx + 1) rest)
              = Except.ok outs := h
          cases hrest : graphHeadGo cfg net assoc bf (none : Option (List τ))
              (counter + img.coords.length) (bIdx + 1) rest with
          | error e => rw [hrest] at h; exact absurd h (by simp [Except.map])
          | ok outs2 =>
            rw [hrest] at h
            have houts : mainOut cfg net assoc bf
                ((none : Option (List τ)).map (fun ts => ts.getD bIdx default))
                counter img :: outs2 = outs := by
              simpa [Except.map] using h
            subst houts
            have hml : (mainOut cfg net assoc bf
                ((none : Option (List τ)).map (fun ts => ts.getD bIdx default))
                counter img).labelsEntry = none := rfl
            simp only [allLabels, List.filterMap_cons, hml, List.filter_cons,
              hcond, if_false]
            exact ih (counter + img.coords.length) (bIdx + 1) outs2 hrest
      · have himg : graphHeadImage cfg net assoc bf (none : Option (List τ))
            counter bIdx img
            = Except.error "Human detections are not permuted to the top" := by
          rw [graphHeadImage, if_neg hskip, if_pos (by simp [hhf])]
        rw [himg] at h
        replace h : (Except.error "Human detections are not permuted to the top"
            : Except String (List GOut)) = Except.ok outs := h
        exact absurd h (by simp)

/-- C10 (amended).  In inference mode, the labels list returned by
`GraphHead.forward` holds exactly one zero-length entry per image taken by
the skip condition and no entry for a non-skipped image; hence for a batch
containing at least one skipped image it is non-empty (so the empty-labels
check of `InteractionHead.postprocess` does not substitute `None` labels),
its length never exceeds the batch's, and it is strictly shorter than the
batch exactly when the batch also contains a non-skipped image. -/
theorem inference_labels_list_matches_skipped_images {τ : Type} [Inhabited τ]
    (cfg : GCfg)
    (net : List (List ℚ) → GImage → List (ℕ × ℕ) → List (List ℚ))
    (assoc : List (List ℚ) → List (List ℚ) → τ → List (List ℚ))
    (boxHead : List ℚ → List ℚ) (bfRaw : List (List ℚ)) (imgs : List GImage)
    (outs : List GOut)
    (hok : graphHeadForward cfg boxHead net assoc bfRaw imgs
        (none : Option (List τ)) = Except.ok outs) :
    allLabels outs = (imgs.filter (skipCond cfg)).map (fun _ => [])
    ∧ (allLabels outs).length ≤ imgs.length
    ∧ ((∃ img ∈ imgs, skipCond cfg img) →
        allLabels outs ≠ []
        ∧ ∀ numBoxes : List ℕ,
            postprocessLabels (allLabels outs) numBoxes
              = (allLabels outs).map some)
    ∧ ((allLabels outs).length < imgs.length
        ↔ ∃ img ∈ imgs, ¬ skipCond cfg img) := by
  have hmain := allLabels_inference cfg net assoc (bfRaw.map boxHead) imgs 0 0
    outs hok
  refine ⟨hmain, ?_, ?_, ?_⟩
  · rw [hmain, List.length_map]
    exact List.length_filter_le _ _
  · rintro ⟨img, hmem, hsk⟩
    have hne : (imgs.filter (skipCond cfg)) ≠ [] :=
      List.ne_nil_of_mem (List.mem_filter.2 ⟨hmem, hsk⟩)
    constructor
    · rw [hmain]
      simpa using hne
    · intro numBoxes
      have hlen0 : ¬ (allLabels outs).length = 0 := by
        rw [hmain]
        simpa [List.length_eq_zero] using hne
      rw [postprocessLabels, if_neg hlen0]
  · rw [hmain, List.length_map]
    exact List.length_filter_lt_length_iff_exists

/-- Witness for C10 at a concrete input: a batch whose single image is
skipped yields a labels list with one empty entry. -/
theorem inference_labels_list_matches_skipped_images_check :
    allLabels [skipOut ⟨0, 1, 1, fun _ => [0]⟩]
      = (([⟨[[0,0,1,1]], [1], [1]⟩] : List GImage).filter
          (skipCond ⟨0, 1, 1, fun _ => [0]⟩)).map (fun _ => []) :=
  (inference_labels_list_matches_skipped_images ⟨0, 1, 1, fun _ => [0]⟩
    (fun e _ _ => e) (fun _ _ (_ : Unit) => []) id [[1]]
    [⟨[[0,0,1,1]], [1], [1]⟩] [skipOut ⟨0, 1, 1, fun _ => [0]⟩] rfl).1

/-- Counterexample to C10 as stated: for a single-image inference batch
whose only image is skipped, the returned labels list has exactly one
(empty) entry, so it is as long as the batch — not strictly shorter, even
though the batch contains at least one skipped image. -/
theorem labels_list_not_shorter_for_all_skipped_batch :
    (graphHeadForward ⟨0, 1, 1, fun _ => [0]⟩ id (fun e _ _ => e)
        (fun _ _ (_ : Unit) => []) [[1]] [⟨[[0,0,1,1]], [1], [1]⟩]
        none).map (fun outs => (allLabels outs).length)
      = Except.ok 1
    ∧ skipCond ⟨0, 1, 1, fun _ => [0]⟩ ⟨[[0,0,1,1]], [1], [1]⟩ = true
    ∧ ¬ ((1 : ℕ) < ([⟨[[0,0,1,1]], [1], [1]⟩] : List GImage).length) := by
  refine ⟨rfl, by decide, by decide⟩

end SCG
